import Mathlib

/-!
Shallow embedding of `src/newfile.py`, a small sympy-backed math REPL
("Pydroid 3 Math Solver"), together with theorems checking the
natural-language specification against it.

Strings are modelled as `List Char`.  The Python string primitives used by
the program (`str.replace`, `str.strip`, `str.lower`, `str.startswith`,
`str.endswith`, `in`, `str.split`) are embedded below; the embedding is
faithful for the ASCII-and-symbols texts the program manipulates
(`str.lower` is modelled on basic latin letters, like `Char.toLower`;
`str.strip` on the four ASCII whitespace characters of
`Char.isWhitespace`; `str.replace` only with a non-empty pattern, which is
the only way the program calls it).

The sympy backend is external to the repository and is modelled abstractly
by the `Backend` structure: a parse function, free-symbol enumeration,
integration, differentiation, and so on, each fallible operation returning
`Except PyExc`, where `PyExc` stands for a Python `Exception` value
(interrupt signals are modelled separately at the REPL-loop level, as in
the source, where only the loop catches `KeyboardInterrupt`).
-/

namespace MathSolver

/-- The ASCII apostrophe character, used to build the Uzbek output labels of
the program. -/
def apos : Char := Char.ofNat 39

/-- Characters of a Lean string literal, as the `List Char` string model. -/
def ch (s : String) : List Char := s.data

/-- Python whitespace test, modelled on the ASCII whitespace characters. -/
def pyWs (c : Char) : Bool := c.isWhitespace

/-- Python `str.lower`, modelled on basic latin letters via `Char.toLower`
(as in the source texts, no other cased characters are involved). -/
def pyLower (l : List Char) : List Char := l.map Char.toLower

/-- Python `str.lstrip()` (no argument: strip whitespace on the left). -/
def lstrip (l : List Char) : List Char := l.dropWhile pyWs

/-- Python `str.rstrip()` (no argument: strip whitespace on the right). -/
def rstrip (l : List Char) : List Char := (l.reverse.dropWhile pyWs).reverse

/-- Python `str.strip()`: whitespace removed from both ends. -/
def pyStrip (l : List Char) : List Char := rstrip (lstrip l)

/-- Fuel-driven worker for `pyReplace`.  One unit of fuel is spent per
output step; `pyReplace` passes the length of the list, which is enough
fuel for a non-empty pattern, so the fuel-exhausted branch is never taken
there. -/
def replFuel (old new : List Char) : Nat → List Char → List Char
  | _, [] => []
  | 0, rest => rest
  | k + 1, c :: cs =>
    if old.isPrefixOf (c :: cs) then
      new ++ replFuel old new k (cs.drop (old.length - 1))
    else
      c :: replFuel old new k cs

/-- Python `str.replace(old, new)` for a non-empty `old`: replaces
non-overlapping occurrences of `old` left to right. -/
def pyReplace (old new l : List Char) : List Char := replFuel old new l.length l

/-- Python `sub in s` substring test. -/
def pyIn (sub : List Char) : List Char → Bool
  | [] => sub.isPrefixOf []
  | c :: cs => sub.isPrefixOf (c :: cs) || pyIn sub cs

/-- Python `s.split(sep, 1)` restricted to the shapes the program uses:
`some (before, after)` splits at the first occurrence of `sep`, `none`
when `sep` does not occur (in which case the unpacking
`left, right = text.split('=', 1)` in the source raises `ValueError`). -/
def pySplitOnce (sep : Char) : List Char → Option (List Char × List Char)
  | [] => none
  | c :: cs =>
    if c = sep then some ([], cs)
    else
      match pySplitOnce sep cs with
      | some (l, r) => some (c :: l, r)
      | none => none

/-- Python `s.split(None, 1)`: drop leading whitespace, take the first
whitespace-delimited token, and return the remainder with its own leading
whitespace removed; the remainder is omitted when it is empty. -/
def pySplitNoneOnce (l : List Char) : List (List Char) :=
  let l1 := l.dropWhile pyWs
  if l1 = [] then []
  else
    let tok := l1.takeWhile (fun c => !pyWs c)
    let rest := (l1.dropWhile (fun c => !pyWs c)).dropWhile pyWs
    if rest = [] then [tok] else [tok, rest]

/-- The replacement chain of `normalize` in the source, before the final
`strip`: `^`→`**`, `×`→`*`, `÷`→`/`, `:`→`/`, `√`→`sqrt`, em dash→`-`,
en dash→`-`, applied in that order. -/
def normCore (s : List Char) : List Char :=
  pyReplace ['–'] ['-']
    (pyReplace ['—'] ['-']
      (pyReplace ['√'] (ch ("sqrt"))
        (pyReplace [':'] ['/']
          (pyReplace ['÷'] ['/']
            (pyReplace ['×'] ['*']
              (pyReplace ['^'] (ch ("**")) s))))))

/-- `normalize` from the source: the symbol substitutions of `normCore`
followed by `strip`. -/
def normalize (s : List Char) : List Char := pyStrip (normCore s)

/-- A Python `Exception` value, as raised by the sympy backend or by string
unpacking; `importError` marks the `ImportError` class, which
`handle_plot` catches separately. -/
inductive PyExc where
  | importError (msg : List Char)
  | exc (msg : List Char)
deriving DecidableEq

/-- Python `str(e)` for an exception value: its message. -/
def pyExcMsg : PyExc → List Char
  | .importError m => m
  | .exc m => m

/-- A `try: ... except ... as e: return onErr e` block around a whole
handler body, as every handler of the source uses. -/
def pyCatch (body : Except PyExc (List Char)) (onErr : PyExc → List Char) :
    Except PyExc (List Char) :=
  match body with
  | .ok s => .ok s
  | .error e => .ok (onErr e)

/-- The external sympy backend, behind the narrow interface the program
uses.  `Expr` is the type of parsed symbolic expressions;
`free_symbols e` models `list(e.free_symbols)` (the enumeration order of
the Python set is backend-determined), `set_union a b` models
`list(s1.union(s2))` on those sets, `equals` models the three-valued
`L.equals(R)` (`True`/`False`/`None`), `str` models `str(e)` as used by
the f-strings, and `x` is the module-level default symbol
`x = symbols('x')`.  Fallible calls return `Except PyExc`. -/
structure Backend where
  Expr : Type
  str : Expr → List Char
  parse_expr : List Char → Except PyExc Expr
  free_symbols : Expr → List Expr
  set_union : List Expr → List Expr → List Expr
  sym_Eq : Expr → Expr → Expr
  equals : Expr → Expr → Option Bool
  solveset : Expr → Expr → Except PyExc Expr
  integrate : Expr → Expr → Except PyExc Expr
  diff : Expr → Expr → Except PyExc Expr
  doit : Expr → Except PyExc Expr
  evalf : Expr → Except PyExc Expr
  simplify : Expr → Except PyExc Expr
  plot : Expr → Except PyExc Unit
  x : Expr

/-- `try_parse` from the source: normalize, then parse with implicit
multiplication enabled (the transformations tuple lives inside
`Backend.parse_expr`). -/
def try_parse (B : Backend) (expr : List Char) : Except PyExc B.Expr :=
  B.parse_expr (normalize expr)

/-- Python truthiness of the three-valued `equals` result: `None` and
`False` are falsy, `True` is truthy. -/
def truthy : Option Bool → Bool
  | some b => b
  | none => false

/-- The affirmative verdict string of the equation handler. -/
def toGri : List Char := ch ("To") ++ [apos] ++ ch ("g") ++ [apos] ++ ch ("ri")

/-- The negative verdict string of the equation handler. -/
def notoGri : List Char := ch ("Noto") ++ [apos] ++ ch ("g") ++ [apos] ++ ch ("ri")

/-- The variable label of the equation handler output. -/
def ozgaruvchiLabel : List Char := ch ("\nO") ++ [apos] ++ ch ("zgaruvchi: ")

/-- The fixed usage hint returned by `handle_limit` on any failure. -/
def limitUsageMsg : List Char :=
  ch ("Limit formati xato. To") ++ [apos] ++ ch ("g") ++ [apos] ++
    ch ("ri format: limit(sin(x)/x, x, 0)")

/-- The missing-dependency message of `handle_plot`. -/
def plotDepMsg : List Char :=
  ch ("XATO: Grafik chizish uchun ") ++ [apos] ++ ch ("matplotlib") ++ [apos] ++
    ch (" kutubxonasini o") ++ [apos] ++ ch ("rnating (Pip orqali).")

/-- The body of `handle_equation` after the split
`left, right = text.split('=', 1)`: parse both sides, collect the union of
their free symbols; with no variables report the truthiness of
`L.equals(R)`, otherwise solve for the first variable.  The `none` case is
the `ValueError` the unpacking raises when the text holds no `=`. -/
def equation_body (B : Backend) : Option (List Char × List Char) → Except PyExc (List Char)
  | none => Except.error (.exc (ch ("not enough values to unpack (expected 2, got 1)")))
  | some (left, right) => do
    let L ← try_parse B left
    let R ← try_parse B right
    let eq := B.sym_Eq L R
    let vars_ := B.set_union (B.free_symbols L) (B.free_symbols R)
    match vars_ with
    | [] =>
      pure (ch ("Tenglama: ") ++ left ++ ch (" = ") ++ right ++ ch ("\nNatija: ") ++
        (if truthy (B.equals L R) then toGri else notoGri))
    | var :: _ => do
      let sol ← B.solveset eq var
      pure (ch ("Tenglama: ") ++ left ++ ch (" = ") ++ right ++ ozgaruvchiLabel ++
        B.str var ++ ch ("\nYechim: ") ++ B.str sol)

/-- `handle_equation` from the source: the body above on the split text,
with any exception becoming a textual message. -/
def handle_equation (B : Backend) (text : List Char) : Except PyExc (List Char) :=
  pyCatch (equation_body B (pySplitOnce '=' text))
    (fun e => ch ("Tenglamada xato: ") ++ pyExcMsg e)

/-- The first stage of the keyword stripping of `handle_integral`:
lowercase, remove the substrings `integral`, `integrate` and the integral
sign, then strip. -/
def integralPre (text : List Char) : List Char :=
  pyStrip (pyReplace (ch ("∫")) []
    (pyReplace (ch ("integrate")) [] (pyReplace (ch ("integral")) [] (pyLower text))))

/-- The keyword stripping of `handle_integral`: the first stage, then chop
a trailing `dx` and strip again. -/
def integralStrip (text : List Char) : List Char :=
  if (ch ("dx")).isSuffixOf (integralPre text) then
    pyStrip ((integralPre text).dropLast.dropLast)
  else integralPre text

/-- `list(f.free_symbols)[0] if f.free_symbols else x` from the source. -/
def varOf (B : Backend) (f : B.Expr) : B.Expr :=
  match B.free_symbols f with
  | [] => B.x
  | v :: _ => v

/-- `handle_integral` from the source. -/
def handle_integral (B : Backend) (text : List Char) : Except PyExc (List Char) :=
  pyCatch
    (do
      let f ← try_parse B (integralStrip text)
      let var := varOf B f
      let res ← B.integrate f var
      pure (ch ("∫ (") ++ B.str f ++ ch (") d") ++ B.str var ++ ch (" = ") ++
        B.str res ++ ch (" + C")))
    (fun e => ch ("Integral xatosi: ") ++ pyExcMsg e)

/-- The first stage of the keyword stripping of `handle_derivative`:
lowercase, except that a `d/d` form keeps the raw remainder after the
first whitespace split (when there is one). -/
def derivPre (text : List Char) : List Char :=
  if (ch ("d/d")).isPrefixOf (pyLower text) then
    match pySplitNoneOnce text with
    | [_, rest] => rest
    | _ => pyLower text
  else pyLower text

/-- The keyword stripping of `handle_derivative`: the first stage, then
removal of the substrings `derivative` and `diff`, then strip. -/
def derivStrip (text : List Char) : List Char :=
  pyStrip (pyReplace (ch ("diff")) [] (pyReplace (ch ("derivative")) [] (derivPre text)))

/-- `handle_derivative` from the source. -/
def handle_derivative (B : Backend) (text : List Char) : Except PyExc (List Char) :=
  pyCatch
    (do
      let f ← try_parse B (derivStrip text)
      let var := varOf B f
      let res ← B.diff f var
      pure (ch ("d/d") ++ B.str var ++ ch (" (") ++ B.str f ++ ch (") = ") ++ B.str res))
    (fun e => ch ("Hosila xatosi: ") ++ pyExcMsg e)

/-- `handle_limit` from the source: parse the whole line, force the limit
object with `doit`; the bare `except:` returns the fixed usage hint. -/
def handle_limit (B : Backend) (text : List Char) : Except PyExc (List Char) :=
  pyCatch
    (do
      let obj ← try_parse B text
      let res ← B.doit obj
      pure (ch ("Limit natijasi: ") ++ B.str res))
    (fun _ => limitUsageMsg)

/-- `handle_plot` from the source: drop the 4-character `plot` prefix,
stripping the remainder, parse and render; `ImportError` gets the
missing-dependency message (the progress `print` has no modelled output). -/
def handle_plot (B : Backend) (text : List Char) : Except PyExc (List Char) :=
  pyCatch
    (do
      let sym ← try_parse B (pyStrip (text.drop 4))
      let _ ← B.plot sym
      pure (ch ("Grafik yakunlandi.")))
    (fun e =>
      match e with
      | .importError _ => plotDepMsg
      | .exc _ => ch ("Grafik xatosi: ") ++ pyExcMsg e)

/-- `handle_other` from the source: on a `factor`/`expand`/`simplify`
keyword the parsed form alone; otherwise the parsed form, the numeric
value when `evalf` succeeds (the inner bare `except: pass` drops the line
otherwise), and the simplified form. -/
def handle_other (B : Backend) (expr_text : List Char) : Except PyExc (List Char) :=
  pyCatch
    (do
      let s_norm := normalize expr_text
      let low := pyLower s_norm
      if (ch ("factor")).isPrefixOf low || (ch ("expand")).isPrefixOf low ||
          (ch ("simplify")).isPrefixOf low then do
        let res ← try_parse B s_norm
        pure (ch ("Natija: ") ++ B.str res)
      else do
        let f ← try_parse B s_norm
        let out := ch ("Ifoda: ") ++ B.str f ++ ch ("\n")
        let out :=
          match B.evalf f with
          | .ok numeric => out ++ ch ("Taqribiy qiymat: ") ++ B.str numeric ++ ch ("\n")
          | .error _ => out
        let simplified ← B.simplify f
        pure (out ++ ch ("Soddalashtirilgan: ") ++ B.str simplified))
    (fun e => ch ("Xato: ") ++ pyExcMsg e)

/-- The eight routes of the dispatcher in `main`. -/
inductive Route where
  | exitCmd
  | helpCmd
  | plotR
  | equationR
  | integralR
  | derivativeR
  | limitR
  | otherR
deriving DecidableEq

/-- The dispatch chain of `main`, applied to the stripped input line:
the exclusive `if`/`elif` sequence of the source, in source order. -/
def dispatch (text : List Char) : Route :=
  let low := pyLower text
  if low == ch ("exit") || low == ch ("quit") then .exitCmd
  else if low == ch ("help") then .helpCmd
  else if (ch ("plot ")).isPrefixOf low then .plotR
  else if text.contains '=' &&
      !((ch ("limit")).isPrefixOf low || (ch ("int")).isPrefixOf low ||
        (ch ("diff")).isPrefixOf low || (ch ("plot")).isPrefixOf low) then .equationR
  else if pyIn (ch ("integral")) low || pyIn (ch ("integrate")) low ||
      text.contains '∫' then .integralR
  else if (ch ("d/d")).isPrefixOf low || (ch ("diff")).isPrefixOf low ||
      (ch ("derivative")).isPrefixOf low then .derivativeR
  else if pyIn (ch ("limit")) low then .limitR
  else .otherR

/-- The spec reading of the classifier (section 4.3 and design note 9.5):
an explicit ordered list of predicate/route pairs, evaluated
first-match-wins, with the generic route as the default.  This definition
follows the words of the specification, to be compared with `dispatch`. -/
def specRouteTable : List ((List Char → Bool) × Route) :=
  [(fun t => pyLower t == ch ("exit") || pyLower t == ch ("quit"), .exitCmd),
   (fun t => pyLower t == ch ("help"), .helpCmd),
   (fun t => (ch ("plot ")).isPrefixOf (pyLower t), .plotR),
   (fun t => t.contains '=' &&
      !((ch ("limit")).isPrefixOf (pyLower t) || (ch ("int")).isPrefixOf (pyLower t) ||
        (ch ("diff")).isPrefixOf (pyLower t) || (ch ("plot")).isPrefixOf (pyLower t)),
    .equationR),
   (fun t => pyIn (ch ("integral")) (pyLower t) || pyIn (ch ("integrate")) (pyLower t) ||
      t.contains '∫', .integralR),
   (fun t => (ch ("d/d")).isPrefixOf (pyLower t) || (ch ("diff")).isPrefixOf (pyLower t) ||
      (ch ("derivative")).isPrefixOf (pyLower t), .derivativeR),
   (fun t => pyIn (ch ("limit")) (pyLower t), .limitR)]

/-- First-match-wins evaluation of a predicate/route table; an input
matching no predicate takes the generic-expression route. -/
def firstMatch : List ((List Char → Bool) × Route) → List Char → Route
  | [], _ => .otherR
  | (p, r) :: rest, t => if p t then r else firstMatch rest t

/-- An iteration of the REPL loop in `main` consumes one event: a read
line, or an interrupt signal (`KeyboardInterrupt`, caught only at the loop
level). -/
inductive LoopEvent where
  | line (s : List Char)
  | interrupt

/-- The loop either returns to its prompt or terminates. -/
inductive LoopState where
  | prompting
  | terminated
deriving DecidableEq

/-- One iteration of the `while True` loop of `main`: strip the line,
re-prompt when empty, break on `exit`/`quit`, otherwise run the rest of
the body (`help`, dispatch, handler, printing) — abstracted as `respond`,
whose `Except.error` outcome models an exception escaping a handler,
caught by the loop-level `except Exception` which reports a generic
program-error message and continues; an interrupt breaks the loop. -/
def loopStep (respond : List Char → Except PyExc (List Char)) : LoopEvent → LoopState
  | .interrupt => .terminated
  | .line s =>
    let text := pyStrip s
    if text = [] then .prompting
    else if pyLower text == ch ("exit") || pyLower text == ch ("quit") then .terminated
    else
      match respond text with
      | .ok _ => .prompting
      | .error _ => .prompting

/-! ### Lemmas about the string model -/

/-- Characters of a replacement result come from the replacement string or
from the input. -/
theorem mem_replFuel {old new : List Char} {k : Nat} {l : List Char} {c : Char}
    (h : c ∈ replFuel old new k l) : c ∈ new ∨ c ∈ l := by
  induction k generalizing l with
  | zero =>
    cases l with
    | nil => simp [replFuel] at h
    | cons a as => exact Or.inr h
  | succ k ih =>
    cases l with
    | nil => simp [replFuel] at h
    | cons a as =>
      simp only [replFuel] at h
      split at h
      · rcases List.mem_append.1 h with h1 | h1
        · exact Or.inl h1
        · rcases ih h1 with h2 | h2
          · exact Or.inl h2
          · exact Or.inr (List.mem_cons_of_mem _ (List.drop_subset _ _ h2))
      · rcases List.mem_cons.1 h with h1 | h1
        · exact Or.inr (h1 ▸ List.mem_cons_self _ _)
        · rcases ih h1 with h2 | h2
          · exact Or.inl h2
          · exact Or.inr (List.mem_cons_of_mem _ h2)

/-- Characters of a replacement result come from the replacement string or
from the input. -/
theorem mem_pyReplace {old new l : List Char} {c : Char}
    (h : c ∈ pyReplace old new l) : c ∈ new ∨ c ∈ l :=
  mem_replFuel h

/-- With enough fuel, a single-character replacement leaves no occurrence
of the replaced character except those inside the replacement string. -/
theorem mem_replFuel_single {a : Char} {new : List Char} {k : Nat} {l : List Char}
    {c : Char} (h : c ∈ replFuel [a] new k l) (hk : l.length ≤ k) :
    c ∈ new ∨ (c ∈ l ∧ c ≠ a) := by
  induction k generalizing l with
  | zero =>
    have : l = [] := List.eq_nil_of_length_eq_zero (Nat.le_zero.1 hk)
    subst this
    simp [replFuel] at h
  | succ k ih =>
    cases l with
    | nil => simp [replFuel] at h
    | cons b bs =>
      simp only [replFuel] at h
      by_cases hab : a = b
      · rw [if_pos (by simp [List.isPrefixOf, hab])] at h
        simp only [List.length_cons, List.length_nil, Nat.zero_add,
          Nat.add_sub_cancel, Nat.sub_self, List.drop_zero] at h hk
        rcases List.mem_append.1 h with h1 | h1
        · exact Or.inl h1
        · rcases ih h1 (by omega) with h2 | h2
          · exact Or.inl h2
          · exact Or.inr ⟨List.mem_cons_of_mem _ h2.1, h2.2⟩
      · rw [if_neg (by simp [List.isPrefixOf, hab])] at h
        simp only [List.length_cons] at hk
        rcases List.mem_cons.1 h with h1 | h1
        · subst h1
          exact Or.inr ⟨List.mem_cons_self _ _, fun hc => hab hc.symm⟩
        · rcases ih h1 (by omega) with h2 | h2
          · exact Or.inl h2
          · exact Or.inr ⟨List.mem_cons_of_mem _ h2.1, h2.2⟩

/-- Replacing a single absent character changes nothing, whatever the
fuel. -/
theorem replFuel_single_id {a : Char} (new : List Char) {k : Nat} {l : List Char}
    (ha : a ∉ l) : replFuel [a] new k l = l := by
  induction k generalizing l with
  | zero => cases l <;> simp [replFuel]
  | succ k ih =>
    cases l with
    | nil => simp [replFuel]
    | cons b bs =>
      have hab : a ≠ b := fun hc => ha (hc ▸ List.mem_cons_self _ _)
      simp only [replFuel]
      rw [if_neg (by simp [List.isPrefixOf, hab])]
      rw [ih (fun hc => ha (List.mem_cons_of_mem _ hc))]

/-- Characters of a single-character replacement result come from the
replacement string or are input characters other than the replaced one. -/
theorem mem_pyReplace_single {a : Char} {new l : List Char} {c : Char}
    (h : c ∈ pyReplace [a] new l) : c ∈ new ∨ (c ∈ l ∧ c ≠ a) :=
  mem_replFuel_single h (Nat.le_refl _)

/-- Replacing a single absent character changes nothing. -/
theorem pyReplace_single_id {a : Char} (new : List Char) {l : List Char}
    (ha : a ∉ l) : pyReplace [a] new l = l :=
  replFuel_single_id new ha

/-- The replaced character does not survive its own single-character
replacement unless the replacement string reintroduces it. -/
theorem not_mem_pyReplace_single {a : Char} {new l : List Char} (hn : a ∉ new) :
    a ∉ pyReplace [a] new l := by
  intro h
  rcases mem_pyReplace_single h with h1 | h1
  · exact hn h1
  · exact h1.2 rfl

/-- A character absent from both the replacement string and the input is
absent from the replacement result. -/
theorem not_mem_pyReplace {old new l : List Char} {c : Char} (hn : c ∉ new)
    (hl : c ∉ l) : c ∉ pyReplace old new l := by
  intro h
  rcases mem_pyReplace h with h1 | h1
  · exact hn h1
  · exact hl h1

/-- `dropWhile` is idempotent. -/
theorem dropWhile_dropWhile (p : Char → Bool) (l : List Char) :
    (l.dropWhile p).dropWhile p = l.dropWhile p := by
  induction l with
  | nil => rfl
  | cons a as ih =>
    by_cases h : p a
    · simp only [List.dropWhile_cons, h, if_true, ih]
    · simp only [List.dropWhile_cons, h, if_false]
      simp [List.dropWhile_cons, h]

/-- Left stripping is idempotent. -/
theorem lstrip_idem (l : List Char) : lstrip (lstrip l) = lstrip l :=
  dropWhile_dropWhile pyWs l

/-- Right stripping is idempotent. -/
theorem rstrip_idem (l : List Char) : rstrip (rstrip l) = rstrip l := by
  unfold rstrip
  rw [List.reverse_reverse, dropWhile_dropWhile]

/-- Characters survive left stripping only if present in the input. -/
theorem mem_lstrip {l : List Char} {c : Char} (h : c ∈ lstrip l) : c ∈ l :=
  (List.dropWhile_suffix pyWs).subset h

/-- Characters survive right stripping only if present in the input. -/
theorem mem_rstrip {l : List Char} {c : Char} (h : c ∈ rstrip l) : c ∈ l := by
  unfold rstrip at h
  rw [List.mem_reverse] at h
  exact List.mem_reverse.1 ((List.dropWhile_suffix pyWs).subset h)

/-- Characters survive stripping only if present in the input. -/
theorem mem_pyStrip {l : List Char} {c : Char} (h : c ∈ pyStrip l) : c ∈ l :=
  mem_lstrip (mem_rstrip h)

/-- A left-stripped string stays left-stripped after right stripping. -/
theorem lstrip_rstrip {m : List Char} (hm : lstrip m = m) :
    lstrip (rstrip m) = rstrip m := by
  have hsuf : m.reverse.dropWhile pyWs <:+ m.reverse := List.dropWhile_suffix pyWs
  have hpre : rstrip m <+: m := by
    have := List.reverse_prefix.2 hsuf
    rwa [List.reverse_reverse] at this
  cases hr : rstrip m with
  | nil => simp [lstrip]
  | cons b bs =>
    rw [hr] at hpre
    obtain ⟨t, ht⟩ := hpre
    have hb : pyWs b = false := by
      by_contra hb
      rw [Bool.not_eq_false] at hb
      have hm2 : m = b :: (bs ++ t) := ht.symm
      rw [hm2] at hm
      unfold lstrip at hm
      rw [List.dropWhile_cons_of_pos hb] at hm
      have hlen := congrArg List.length hm
      have hle := (List.dropWhile_sublist (l := bs ++ t) pyWs).length_le
      simp only [List.length_cons] at hlen
      omega
    unfold lstrip
    rw [List.dropWhile_cons_of_neg (by simp [hb])]

/-- Python `strip` is idempotent. -/
theorem pyStrip_idem (l : List Char) : pyStrip (pyStrip l) = pyStrip l := by
  unfold pyStrip
  rw [lstrip_rstrip (lstrip_idem l), rstrip_idem]

/-- None of the seven characters the normalizer replaces survives its
replacement chain: each is removed at its own stage and no replacement
string reintroduces any of them. -/
theorem specials_not_mem_normCore (s : List Char) :
    '^' ∉ normCore s ∧ '×' ∉ normCore s ∧ '÷' ∉ normCore s ∧ ':' ∉ normCore s ∧
      '√' ∉ normCore s ∧ '—' ∉ normCore s ∧ '–' ∉ normCore s := by
  unfold normCore
  refine ⟨?_, ?_, ?_, ?_, ?_, ?_, ?_⟩
  · exact not_mem_pyReplace (by decide) (not_mem_pyReplace (by decide)
      (not_mem_pyReplace (by decide) (not_mem_pyReplace (by decide)
        (not_mem_pyReplace (by decide) (not_mem_pyReplace (by decide)
          (not_mem_pyReplace_single (by decide)))))))
  · exact not_mem_pyReplace (by decide) (not_mem_pyReplace (by decide)
      (not_mem_pyReplace (by decide) (not_mem_pyReplace (by decide)
        (not_mem_pyReplace (by decide) (not_mem_pyReplace_single (by decide))))))
  · exact not_mem_pyReplace (by decide) (not_mem_pyReplace (by decide)
      (not_mem_pyReplace (by decide) (not_mem_pyReplace (by decide)
        (not_mem_pyReplace_single (by decide)))))
  · exact not_mem_pyReplace (by decide) (not_mem_pyReplace (by decide)
      (not_mem_pyReplace (by decide) (not_mem_pyReplace_single (by decide))))
  · exact not_mem_pyReplace (by decide) (not_mem_pyReplace (by decide)
      (not_mem_pyReplace_single (by decide)))
  · exact not_mem_pyReplace (by decide) (not_mem_pyReplace_single (by decide))
  · exact not_mem_pyReplace_single (by decide)

/-- C5: for every string `s`, `normalize (normalize s) = normalize s`:
normalization is idempotent, in particular on already-normalized text. -/
theorem normalize_idempotent (s : List Char) :
    normalize (normalize s) = normalize s := by
  obtain ⟨h1, h2, h3, h4, h5, h6, h7⟩ := specials_not_mem_normCore s
  have g : ∀ c : Char, c ∉ normCore s → c ∉ normalize s := fun c hc hmem =>
    hc (mem_pyStrip hmem)
  have hcore : normCore (normalize s) = normalize s := by
    unfold normCore
    rw [pyReplace_single_id _ (g _ h1), pyReplace_single_id _ (g _ h2),
      pyReplace_single_id _ (g _ h3), pyReplace_single_id _ (g _ h4),
      pyReplace_single_id _ (g _ h5), pyReplace_single_id _ (g _ h6),
      pyReplace_single_id _ (g _ h7)]
  show pyStrip (normCore (normalize s)) = normalize s
  rw [hcore]
  show pyStrip (pyStrip (normCore s)) = normalize s
  rw [pyStrip_idem]
  rfl

/-! ### Reduction lemmas for the `Except` monad -/

/-- Sequencing after a successful step runs the continuation. -/
theorem exceptBind_ok {α β : Type} (a : α) (f : α → Except PyExc β) :
    ((Except.ok a : Except PyExc α) >>= f) = f a := rfl

/-- Sequencing after a raised exception propagates the exception. -/
theorem exceptBind_error {α β : Type} (e : PyExc) (f : α → Except PyExc β) :
    ((Except.error e : Except PyExc α) >>= f) = Except.error e := rfl

/-- A handler-level `try`/`except` block never lets an exception out. -/
theorem pyCatch_ok (body : Except PyExc (List Char)) (onErr : PyExc → List Char) :
    ∃ s, pyCatch body onErr = .ok s := by
  cases body with
  | ok s => exact ⟨s, rfl⟩
  | error e => exact ⟨onErr e, rfl⟩

/-! ### Claim theorems on routing, error handling and the loop -/

/-- C1: for every stripped non-empty input line, the dispatcher selects
exactly one route, and it is the one given by first-match evaluation of
the priority-ordered route table of the specification: exit/quit, help,
plot, equation (an `=` and none of the excluded prefixes), integral,
derivative, limit, generic. -/
theorem dispatch_eq_firstMatch (t : List Char) (_hstrip : pyStrip t = t)
    (_hne : t ≠ []) : dispatch t = firstMatch specRouteTable t := rfl

/-- Witness for C1 at the concrete stripped non-empty line `help`. -/
theorem dispatch_eq_firstMatch_witness :
    pyStrip (ch ("help")) = ch ("help") ∧ ch ("help") ≠ ([] : List Char) ∧
      dispatch (ch ("help")) = firstMatch specRouteTable (ch ("help")) :=
  ⟨by decide, by decide,
    dispatch_eq_firstMatch (ch ("help")) (by decide) (by decide)⟩

/-- C2: whatever the backend does — including raising an exception on any
call — every handler returns a textual result (`Except.ok`) and never
propagates an exception to its caller. -/
theorem handlers_never_throw (B : Backend) (t : List Char) :
    (∃ s, handle_equation B t = .ok s) ∧ (∃ s, handle_integral B t = .ok s) ∧
      (∃ s, handle_derivative B t = .ok s) ∧ (∃ s, handle_limit B t = .ok s) ∧
      (∃ s, handle_plot B t = .ok s) ∧ (∃ s, handle_other B t = .ok s) :=
  ⟨pyCatch_ok _ _, pyCatch_ok _ _, pyCatch_ok _ _, pyCatch_ok _ _,
    pyCatch_ok _ _, pyCatch_ok _ _⟩

/-- C7: on the limit route, any failure — a parse failure or a `doit`
evaluation failure — yields the one fixed usage-hint message, independent
of the exception value. -/
theorem limit_failure_fixed_message (B : Backend) (t : List Char)
    (h : (∃ e, try_parse B t = .error e) ∨
      (∃ f e, try_parse B t = .ok f ∧ B.doit f = .error e)) :
    handle_limit B t = .ok limitUsageMsg := by
  unfold handle_limit
  rcases h with ⟨e, he⟩ | ⟨f, e, hf, he⟩
  · rw [he]
    rfl
  · rw [hf]
    show pyCatch (B.doit f >>= fun res => pure (ch ("Limit natijasi: ") ++ B.str res))
      (fun _ => limitUsageMsg) = .ok limitUsageMsg
    rw [he]
    rfl

/-- C8: an interrupt terminates the loop; an empty line re-prompts; a read
line terminates the loop exactly when its stripped, lowercased form is
`exit` or `quit` — whatever the rest of the body does, even when a handler
lets an exception escape (the loop-level catch turns it into a
program-error report and keeps prompting). -/
theorem loop_terminates_only_on_exit
    (respond : List Char → Except PyExc (List Char)) :
    loopStep respond .interrupt = .terminated ∧
      (∀ s, pyStrip s = [] → loopStep respond (.line s) = .prompting) ∧
      (∀ s, loopStep respond (.line s) = .terminated ↔
        (pyLower (pyStrip s) = ch ("exit") ∨ pyLower (pyStrip s) = ch ("quit"))) := by
  refine ⟨rfl, ?_, ?_⟩
  · intro s h
    simp only [loopStep]
    rw [if_pos h]
  · intro s
    simp only [loopStep]
    by_cases h0 : pyStrip s = []
    · rw [if_pos h0, h0]
      constructor
      · intro hc
        exact absurd hc (by simp)
      · intro hc
        rcases hc with hc | hc <;> exact absurd hc (by decide)
    · rw [if_neg h0]
      by_cases h1 : pyLower (pyStrip s) = ch ("exit") ∨ pyLower (pyStrip s) = ch ("quit")
      · rw [if_pos (by rcases h1 with h | h <;> simp [h])]
        exact ⟨fun _ => h1, fun _ => rfl⟩
      · rw [if_neg (by simpa using h1)]
        constructor
        · intro hc
          cases hre : respond (pyStrip s) <;> rw [hre] at hc <;> exact absurd hc (by simp)
        · intro hc
          exact absurd hc h1

/-- C3: on the equation route, when both sides parse and the union of
their free symbols is empty, the verdict is the affirmative string exactly
for a definite positive `equals` answer and the negative string exactly
for a definite negative one (the backend `equals` call is the program's
constant-equality comparison of the parsed sides). -/
theorem equation_constant_verdict (B : Backend) (text left right : List Char)
    (L R : B.Expr) (b : Bool)
    (hsplit : pySplitOnce '=' text = some (left, right))
    (hL : try_parse B left = .ok L) (hR : try_parse B right = .ok R)
    (hvars : B.set_union (B.free_symbols L) (B.free_symbols R) = [])
    (heq : B.equals L R = some b) :
    handle_equation B text = .ok (ch ("Tenglama: ") ++ left ++ ch (" = ") ++ right ++
      ch ("\nNatija: ") ++ (if b then toGri else notoGri)) := by
  unfold handle_equation
  rw [hsplit]
  simp only [equation_body, hL, hR, hvars, heq, exceptBind_ok, truthy, pyCatch]
  rfl

/-- C10: in the no-variable equation case an inconclusive `equals` answer
(`None`) collapses to the negative verdict: only a definite `True` yields
the affirmative string. -/
theorem equation_inconclusive_verdict (B : Backend) (text left right : List Char)
    (L R : B.Expr)
    (hsplit : pySplitOnce '=' text = some (left, right))
    (hL : try_parse B left = .ok L) (hR : try_parse B right = .ok R)
    (hvars : B.set_union (B.free_symbols L) (B.free_symbols R) = [])
    (heq : B.equals L R = none) :
    handle_equation B text = .ok (ch ("Tenglama: ") ++ left ++ ch (" = ") ++ right ++
      ch ("\nNatija: ") ++ notoGri) := by
  unfold handle_equation
  rw [hsplit]
  simp only [equation_body, hL, hR, hvars, heq, exceptBind_ok, truthy, pyCatch,
    if_false, Bool.false_eq_true]
  rfl

/-- C6: on the integral route, when the stripped text parses and the
integral computes, the output is `∫ (expr) d<var> = <result> + C` with the
variable the first free symbol of the parsed expression, or the default
symbol `x` when there is none (`varOf`). -/
theorem integral_route_format (B : Backend) (text : List Char) (f res : B.Expr)
    (hparse : try_parse B (integralStrip text) = .ok f)
    (hint : B.integrate f (varOf B f) = .ok res) :
    handle_integral B text = .ok (ch ("∫ (") ++ B.str f ++ ch (") d") ++
      B.str (varOf B f) ++ ch (" = ") ++ B.str res ++ ch (" + C")) := by
  unfold handle_integral
  simp only [hparse, hint, exceptBind_ok, pyCatch]
  rfl

/-- C4: on the generic route, when the normalized lowercased text has no
`factor`/`expand`/`simplify` keyword prefix and both parsing and
simplification succeed, the output reports the parsed form, contains the
approximate-value line exactly when `evalf` succeeds (it is silently
omitted when `evalf` fails), and always ends with the simplified form. -/
theorem generic_route_format (B : Backend) (t : List Char) (f simplified : B.Expr)
    (hkw : ((ch ("factor")).isPrefixOf (pyLower (normalize t)) ||
      (ch ("expand")).isPrefixOf (pyLower (normalize t)) ||
      (ch ("simplify")).isPrefixOf (pyLower (normalize t))) = false)
    (hparse : try_parse B (normalize t) = .ok f)
    (hsimp : B.simplify f = .ok simplified) :
    (∀ numeric, B.evalf f = .ok numeric →
      handle_other B t = .ok (ch ("Ifoda: ") ++ B.str f ++ ch ("\n") ++
        ch ("Taqribiy qiymat: ") ++ B.str numeric ++ ch ("\n") ++
        ch ("Soddalashtirilgan: ") ++ B.str simplified)) ∧
    ((∃ e, B.evalf f = .error e) →
      handle_other B t = .ok (ch ("Ifoda: ") ++ B.str f ++ ch ("\n") ++
        ch ("Soddalashtirilgan: ") ++ B.str simplified)) := by
  constructor
  · intro numeric hnum
    unfold handle_other
    simp only [hkw, hparse, hnum, hsimp, exceptBind_ok, pyCatch, Bool.false_eq_true,
      if_false]
    rfl
  · rintro ⟨e, hnum⟩
    unfold handle_other
    simp only [hkw, hparse, hnum, hsimp, exceptBind_ok, pyCatch, Bool.false_eq_true,
      if_false]
    rfl

/-- Witness for C8 at a concrete empty (all-whitespace) line and echoing
responder, discharging the empty-line hypothesis. -/
theorem loop_terminates_only_on_exit_witness :
    loopStep (fun t => Except.ok t) (.line (ch ("   "))) = .prompting :=
  (loop_terminates_only_on_exit (fun t => Except.ok t)).2.1 (ch ("   ")) (by decide)

/-! ### Case analysis for the lowercasing claim -/

/-- No basic latin capital letter in a string: the property of interest
for the text the integral and derivative handlers hand to the parser. -/
def noUpper (l : List Char) : Prop := ∀ c ∈ l, c.isUpper = false

/-- `Char.isUpper` through the scalar value. -/
theorem isUpper_eq (c : Char) :
    c.isUpper = (decide (65 ≤ c.toNat) && decide (c.toNat ≤ 90)) := rfl

/-- Lowercasing a character never yields a basic latin capital letter. -/
theorem isUpper_toLower (c : Char) : (Char.toLower c).isUpper = false := by
  show (if c.toNat ≥ 65 ∧ c.toNat ≤ 90 then Char.ofNat (c.toNat + 32) else c).isUpper
    = false
  by_cases h : c.toNat ≥ 65 ∧ c.toNat ≤ 90
  · rw [if_pos h]
    have hvalid : Nat.isValidChar (c.toNat + 32) := Or.inl (by omega)
    have htoNat : (Char.ofNat (c.toNat + 32)).toNat = c.toNat + 32 := by
      rw [Char.ofNat, dif_pos hvalid]
      rfl
    rw [isUpper_eq, htoNat]
    have hn : ¬(c.toNat + 32 ≤ 90) := by omega
    simp [hn]
  · rw [if_neg h]
    rw [isUpper_eq]
    by_cases h65 : 65 ≤ c.toNat
    · have hn : ¬(c.toNat ≤ 90) := fun hc => h ⟨h65, hc⟩
      simp [hn]
    · simp [h65]

/-- A lowercased string has no capital letters. -/
theorem noUpper_pyLower (l : List Char) : noUpper (pyLower l) := by
  intro c hc
  obtain ⟨d, _, rfl⟩ := List.mem_map.1 hc
  exact isUpper_toLower d

/-- `noUpper` transfers along character containment. -/
theorem noUpper_mono {l m : List Char} (hsub : ∀ c, c ∈ m → c ∈ l)
    (h : noUpper l) : noUpper m := fun c hc => h c (hsub c hc)

/-- The integral stripping never introduces capital letters beyond its
(lowercased) input. -/
theorem noUpper_integralStrip (text : List Char) : noUpper (integralStrip text) := by
  have h0 : noUpper (pyLower text) := noUpper_pyLower text
  have h1 : noUpper (pyReplace (ch ("integral")) [] (pyLower text)) :=
    noUpper_mono (fun c hc => by
      rcases mem_pyReplace hc with h | h
      · simp at h
      · exact h) h0
  have h2 : noUpper (pyReplace (ch ("integrate")) []
      (pyReplace (ch ("integral")) [] (pyLower text))) :=
    noUpper_mono (fun c hc => by
      rcases mem_pyReplace hc with h | h
      · simp at h
      · exact h) h1
  have h3 : noUpper (pyReplace (ch ("∫")) [] (pyReplace (ch ("integrate")) []
      (pyReplace (ch ("integral")) [] (pyLower text)))) :=
    noUpper_mono (fun c hc => by
      rcases mem_pyReplace hc with h | h
      · simp at h
      · exact h) h2
  have h4 : noUpper (pyStrip (pyReplace (ch ("∫")) [] (pyReplace (ch ("integrate")) []
      (pyReplace (ch ("integral")) [] (pyLower text))))) :=
    noUpper_mono (fun c hc => mem_pyStrip hc) h3
  have h4 : noUpper (integralPre text) := h4
  unfold integralStrip
  split
  · exact noUpper_mono (fun c hc =>
      (List.dropLast_sublist _).subset
        ((List.dropLast_sublist _).subset (mem_pyStrip hc))) h4
  · exact h4

/-- The derivative stripping for the keyword (non-`d/d`) forms never
introduces capital letters beyond its (lowercased) input. -/
theorem noUpper_derivStrip (text : List Char)
    (hd : (ch ("d/d")).isPrefixOf (pyLower text) = false) :
    noUpper (derivStrip text) := by
  have h0 : noUpper (pyLower text) := noUpper_pyLower text
  have h1 : noUpper (pyReplace (ch ("derivative")) [] (pyLower text)) :=
    noUpper_mono (fun c hc => by
      rcases mem_pyReplace hc with h | h
      · simp at h
      · exact h) h0
  have h2 : noUpper (pyReplace (ch ("diff")) []
      (pyReplace (ch ("derivative")) [] (pyLower text))) :=
    noUpper_mono (fun c hc => by
      rcases mem_pyReplace hc with h | h
      · simp at h
      · exact h) h1
  have hpre : derivPre text = pyLower text := by
    unfold derivPre
    rw [hd]
    simp
  unfold derivStrip
  rw [hpre]
  exact noUpper_mono (fun c hc => mem_pyStrip hc) h2

/-- C9: the integral handler lowercases the whole line before stripping
and parsing, and the derivative handler does the same on its keyword
(non-`d/d`) forms, so the text each hands to the parser holds no capital
letter; concretely, `integral X^2` strips to `x^2`. -/
theorem keyword_routes_lowercase :
    (∀ text, noUpper (integralStrip text)) ∧
      (∀ text, (ch ("d/d")).isPrefixOf (pyLower text) = false →
        noUpper (derivStrip text)) ∧
      integralStrip (ch ("integral X^2")) = ch ("x^2") :=
  ⟨noUpper_integralStrip, noUpper_derivStrip, by decide⟩

/-- Witness for C9 at the concrete keyword-form derivative input
`diff X^2` (and, through the theorem, the integral conjuncts). -/
theorem keyword_routes_lowercase_witness :
    (ch ("d/d")).isPrefixOf (pyLower (ch ("diff X^2"))) = false ∧
      noUpper (derivStrip (ch ("diff X^2"))) :=
  ⟨by decide, keyword_routes_lowercase.2.1 (ch ("diff X^2")) (by decide)⟩

/-! ### A small concrete backend for the witnesses -/

/-- A concrete instance of the backend interface used to witness the
format theorems: expressions are natural numbers, the texts `2` and `4`
parse to the numbers 2 and 4, everything is constant (no free symbols),
`equals` answers a definite `True` on equal numbers and is inconclusive
otherwise, and `integrate` adds the variable. -/
def toyB : Backend where
  Expr := Nat
  str := fun n => ch (toString n)
  parse_expr := fun s =>
    if s = ch ("2") then .ok 2
    else if s = ch ("4") then .ok 4
    else .error (.exc (ch ("Sintaksis xato")))
  free_symbols := fun _ => []
  set_union := fun a b => a ++ b
  sym_Eq := fun a _ => a
  equals := fun a b => if a = b then some true else none
  solveset := fun _ _ => .error (.exc (ch ("yechim topilmadi")))
  integrate := fun f v => .ok (f + v)
  diff := fun _ _ => .ok 0
  doit := fun f => .ok f
  evalf := fun f => .ok f
  simplify := fun f => .ok f
  plot := fun _ => .ok ()
  x := 0

/-- Witness for C3 at the concrete constant equation `2=2`. -/
theorem equation_constant_verdict_witness :
    handle_equation toyB (ch ("2=2")) = .ok (ch ("Tenglama: ") ++ ch ("2") ++
      ch (" = ") ++ ch ("2") ++ ch ("\nNatija: ") ++
      (if true then toGri else notoGri)) :=
  equation_constant_verdict toyB (ch ("2=2")) (ch ("2")) (ch ("2"))
    (2 : Nat) (2 : Nat) true (by decide) rfl rfl rfl rfl

/-- Witness for C10 at the concrete constant equation `2=4`, on which the
toy backend `equals` is inconclusive. -/
theorem equation_inconclusive_verdict_witness :
    handle_equation toyB (ch ("2=4")) = .ok (ch ("Tenglama: ") ++ ch ("2") ++
      ch (" = ") ++ ch ("4") ++ ch ("\nNatija: ") ++ notoGri) :=
  equation_inconclusive_verdict toyB (ch ("2=4")) (ch ("2")) (ch ("4"))
    (2 : Nat) (4 : Nat) (by decide) rfl rfl rfl rfl

/-- Witness for C6 at the concrete input `integral 2`. -/
theorem integral_route_format_witness :
    handle_integral toyB (ch ("integral 2")) = .ok (ch ("∫ (") ++
      toyB.str (2 : Nat) ++ ch (") d") ++ toyB.str (varOf toyB (2 : Nat)) ++
      ch (" = ") ++ toyB.str (2 : Nat) ++ ch (" + C")) :=
  integral_route_format toyB (ch ("integral 2")) (2 : Nat) (2 : Nat) rfl rfl

/-- Witness for C4 at the concrete input `2`. -/
theorem generic_route_format_witness :
    handle_other toyB (ch ("2")) = .ok (ch ("Ifoda: ") ++ toyB.str (2 : Nat) ++
      ch ("\n") ++ ch ("Taqribiy qiymat: ") ++ toyB.str (2 : Nat) ++ ch ("\n") ++
      ch ("Soddalashtirilgan: ") ++ toyB.str (2 : Nat)) :=
  (generic_route_format toyB (ch ("2")) (2 : Nat) (2 : Nat)
    (by decide) rfl rfl).1 (2 : Nat) rfl

/-- Witness for C7 at a concrete limit line the toy backend cannot
parse. -/
theorem limit_failure_fixed_message_witness :
    handle_limit toyB (ch ("limit(sin(x)/x, x, 0)")) = .ok limitUsageMsg :=
  limit_failure_fixed_message toyB (ch ("limit(sin(x)/x, x, 0)"))
    (Or.inl ⟨.exc (ch ("Sintaksis xato")), rfl⟩)

end MathSolver
